import Mathlib

/-!
Shallow embedding of the provider layer of the `ask` CLI
(package `internal/providers`): the shared HTTP/transport helpers
(`http.go`), the generic OpenAI-compatible adapter
(`openai_compatible.go`), and the Anthropic, Gemini and Ollama adapters.

HTTP itself is abstracted as an oracle `payload → Except String response`;
each `Ask`/`ListModels` model returns, next to its result, the trace of
oracle calls it issued, so that statements about "number of HTTP calls"
and "payload/headers of each call" are about the model. Strings are Lean
`String`s; Go `strings.TrimSpace` / `ToLower` / `EqualFold` are embedded
at the ASCII level (the identifier- and error-strings the claims are
about are ASCII).
-/

namespace Ask

/-- Whitespace test used by the Go `strings.TrimSpace` calls in the
provider layer (ASCII subset of Unicode white space). -/
def isSpaceChar (c : Char) : Bool :=
  c = ' ' || c = '\t' || c = '\n' || c = '\r'

/-- Embeds Go `strings.TrimSpace`: drop leading and trailing whitespace. -/
def trimSpace (s : String) : String :=
  ⟨((s.data.dropWhile isSpaceChar).reverse.dropWhile isSpaceChar).reverse⟩

/-- Embeds Go `strings.TrimPrefix(s, pre)`: remove `pre` once when it is
a prefix, else return `s` unchanged (character-level model of the Go
byte slicing; for an ASCII `pre` the two coincide). -/
def trimPre (s pre : String) : String :=
  if pre.data.isPrefixOf s.data then ⟨s.data.drop pre.data.length⟩ else s

/-- ASCII lower-casing of one character (model of Go `unicode.ToLower`
restricted to ASCII, which is all the heuristic strings use). -/
def lowerChar (c : Char) : Char :=
  if 'A' ≤ c ∧ c ≤ 'Z' then Char.ofNat (c.toNat + 32) else c

/-- Embeds Go `strings.ToLower` at the ASCII level. -/
def lowerStr (s : String) : String :=
  ⟨s.data.map lowerChar⟩

/-- Substring test on character lists (helper for `containsSubstr`). -/
def listContainsSub (pat : List Char) : List Char → Bool
  | [] => pat.isEmpty
  | c :: rest => pat.isPrefixOf (c :: rest) || listContainsSub pat rest

/-- Embeds Go `strings.Contains(s, pat)`. -/
def containsSubstr (s pat : String) : Bool :=
  listContainsSub pat.data s.data

/-- Embeds Go `strings.EqualFold` (ASCII case folding). -/
def equalFold (a b : String) : Bool :=
  lowerStr a == lowerStr b

/-- Go string comparison `a < b` is byte-wise lexicographic; `strLeChars`
is its reflexive closure on character lists. -/
def strLeChars : List Char → List Char → Bool
  | [], _ => true
  | _ :: _, [] => false
  | a :: as, b :: bs => if a < b then true else if b < a then false else strLeChars as bs

/-- Reflexive closure of the Go string order (for ASCII identical to
byte order). -/
def strLe (a b : String) : Bool :=
  strLeChars a.data b.data

/-- Embeds Go `strings.Join(parts, "\n")`. -/
def joinNL : List String → String
  | [] => ""
  | [s] => s
  | s :: t :: rest => s ++ "\n" ++ joinNL (t :: rest)

/-- Embeds Go `strings.TrimRight(s, "/")`. -/
def dropTrailingSlashes (s : String) : String :=
  ⟨(s.data.reverse.dropWhile (fun c => c = '/')).reverse⟩

/-! ## Data model (`client.go`) -/

/-- `providers.Model`: one selectable model exposed by a provider. -/
structure Model where
  ID : String
  DisplayName : String
deriving DecidableEq, Repr

/-- `providers.AskRequest` (fields lower-cased for Lean). -/
structure AskRequest where
  model : String
  prompt : String
  question : String
  expectJSON : Bool
deriving DecidableEq, Repr

/-- `providers.AskResponse`. -/
structure AskResponse where
  text : String
deriving DecidableEq, Repr

/-! ## Shared helpers (`http.go`) -/

/-- `validateAskRequest`: `some msg` is the Go non-nil error. -/
def validateAskRequest (req : AskRequest) : Option String :=
  if trimSpace req.model = "" then some "model is required"
  else if trimSpace req.question = "" then some "question is required"
  else none

/-- `responseFormatLikelyUnsupported` applied to the text of a non-nil
error (the `err = nil → false` case is carried by `Except`). -/
def responseFormatLikelyUnsupported (msg : String) : Bool :=
  let m := lowerStr msg
  containsSubstr m "response_format" ||
  containsSubstr m "responsemimetype" ||
  containsSubstr m "response_mime_type"

/-- `truncate(s, max)` from `http.go` (byte length modelled as character
length; the strings involved are ASCII). -/
def truncate (s : String) (max : Nat) : String :=
  if s.length ≤ max then s else (⟨s.data.take max⟩ : String) ++ "..."

/-- `joinURL(base, path)` from `http.go`. -/
def joinURL (base path : String) : String :=
  let b := dropTrailingSlashes (trimSpace base)
  let p := trimSpace path
  if p = "" then b
  else if "http://".data.isPrefixOf p.data || "https://".data.isPrefixOf p.data then p
  else if "/".data.isPrefixOf p.data then b ++ p
  else b ++ "/" ++ p

/-- An HTTP response as seen after `client.Do` and `io.ReadAll`:
status code plus raw body. -/
structure HTTPResponse where
  status : Nat
  body : String
deriving DecidableEq, Repr

/-- `doJSON` from `http.go`. The transport call is the `resp` argument
(`.error` = Go transport failure), JSON decoding of the body is the
`decode` argument, and `out` is the value of the caller-supplied output
structure before the call (every call site in the repo passes a non-nil
`out`). Go renders `resp.Status`; the model renders the numeric code. -/
def doJSON {A : Type} (resp : Except String HTTPResponse)
    (decode : String → Except String A) (out : A) : Except String A :=
  match resp with
  | .error e => .error ("http request failed: " ++ e)
  | .ok r =>
    if 400 ≤ r.status then
      .error ("provider returned " ++ toString r.status ++ ": " ++ truncate r.body 700)
    else if trimSpace r.body = "" then .ok out
    else
      match decode r.body with
      | .error e => .error ("decode response JSON: " ++ e ++ "; body=" ++ truncate r.body 700)
      | .ok v => .ok v

/-! ## Content extraction (`openai_compatible.go`, `extractMessageContent`) -/

/-- One element of a decoded JSON array: a JSON object (carrying the
string value of its `text` field, `""` when the field is absent or not a
string, matching Go `obj["text"].(string)` with the ok flag dropped) or
a non-object value (skipped by the loop). -/
inductive JsonItem where
  | obj (text : String)
  | nonObj
deriving DecidableEq, Repr

/-- The dynamic `content` value handed to `extractMessageContent`:
a JSON string, a JSON array, or anything else. -/
inductive Content where
  | str (s : String)
  | arr (items : List JsonItem)
  | other
deriving DecidableEq, Repr

/-- The `parts` slice built by the array branch of
`extractMessageContent`: fragments kept untrimmed, an item kept iff it
is an object whose `text` is non-empty after trimming. -/
def usableParts (items : List JsonItem) : List String :=
  items.filterMap fun it =>
    match it with
    | .obj text => if trimSpace text = "" then none else some text
    | .nonObj => none

/-- `extractMessageContent` (the Go `%T` type name in the default-branch
error is elided). -/
def extractMessageContent : Content → Except String String
  | .str value => .ok (trimSpace value)
  | .arr items =>
    let parts := usableParts items
    if parts = [] then .error "array content had no text parts"
    else .ok (trimSpace (joinNL parts))
  | .other => .error "unsupported content type"

/-! ## Model sorting

Every `ListModels` implementation ends with
`sort.Slice(models, func(i, j int) { return models[i].ID < models[j].ID })`:
an (unstable) sort by the Go byte-wise string order. The model uses
insertion sort by the corresponding `≤` on `ID`; the observable
guarantee of the source — a permutation of the input sorted
nondecreasingly by `ID` — is the same. -/

/-- The sort order of `sort.Slice` in the `ListModels` implementations:
nondecreasing `ID` in the Go string order. -/
def modelLe (a b : Model) : Prop := strLe a.ID b.ID = true

instance : DecidableRel modelLe :=
  fun a b => inferInstanceAs (Decidable (strLe a.ID b.ID = true))

/-- `sortByID` embeds the `sort.Slice(models, ...)` call. -/
def sortByID (l : List Model) : List Model :=
  List.insertionSort modelLe l

/-! ## Generic OpenAI-compatible adapter (`openai_compatible.go`) -/

/-- `openAICompatibleClient` (field `authPfx` embeds the Go field
`authPrefix`). -/
structure OpenAICompatClient where
  name : String
  apiKey : String
  base : String
  modelsPath : String
  chatPath : String
  authHeader : String
  authPfx : String
  requireAPIKey : Bool
  headers : List (String × String)
deriving DecidableEq, Repr

/-- The auth-header `req.Header.Set` performed by `setHeaders` when the
client requires a key and has one; `[]` otherwise. -/
def authEntries (c : OpenAICompatClient) : List (String × String) :=
  if c.requireAPIKey = true ∧ c.apiKey ≠ "" then
    [(c.authHeader, c.authPfx ++ c.apiKey)]
  else []

/-- The extra-header `req.Header.Set` calls performed by the loop in
`setHeaders`: entries with blank key or blank value are skipped. -/
def extraEntries (c : OpenAICompatClient) : List (String × String) :=
  c.headers.filter fun kv => !(trimSpace kv.1 == "") && !(trimSpace kv.2 == "")

/-- `openAICompatibleClient.setHeaders`, as the ordered list of
`Header.Set` operations it performs (auth header first, then the
configured extra headers). -/
def setHeaders (c : OpenAICompatClient) : List (String × String) :=
  authEntries c ++ extraEntries c

/-- The chat-completions payload built by `askWithPayload`:
`{model, messages: [system Prompt, user Question], temperature: 0.2}`,
plus `response_format: {type: json_object}` exactly when
`responseFormatJSON` (the constant temperature field is elided). -/
structure OAIPayload where
  model : String
  systemContent : String
  userContent : String
  responseFormatJSON : Bool
deriving DecidableEq, Repr

/-- Payload construction in `askWithPayload`: `response_format` is added
iff `reqBody.ExpectJSON && includeResponseFormat`. -/
def buildOAIPayload (req : AskRequest) (includeResponseFormat : Bool) : OAIPayload :=
  ⟨req.model, req.prompt, req.question, req.expectJSON && includeResponseFormat⟩

/-- One HTTP POST issued by `askWithPayload`: url, headers as set by
`setHeaders`, and the JSON payload. -/
structure OAICall where
  url : String
  headers : List (String × String)
  payload : OAIPayload
deriving DecidableEq, Repr

/-- One element of the decoded `choices` array (`message.content`). -/
structure OAIChoice where
  content : Content
deriving DecidableEq, Repr

/-- The decoded chat-completions response body. -/
structure OAIChatResp where
  choices : List OAIChoice
deriving DecidableEq, Repr

/-- The tail of `openAICompatibleClient.Ask` after a successful HTTP
exchange: empty `choices` is an error, else the first choice's content
is extracted. -/
def finishOAI (c : OpenAICompatClient) (resp : OAIChatResp) : Except String AskResponse :=
  match resp.choices with
  | [] => .error ("no choices returned by " ++ c.name)
  | ch :: _ =>
    match extractMessageContent ch.content with
    | .error e => .error ("decode " ++ c.name ++ " response content: " ++ e)
    | .ok text => .ok ⟨text⟩

/-- `openAICompatibleClient.Ask`. The oracle stands for one
`askWithPayload` HTTP round trip (request construction, `doJSON`, JSON
decode); the second component of the result is the trace of HTTP calls
issued, in order. -/
def openAICompatAsk (c : OpenAICompatClient)
    (oracle : OAIPayload → Except String OAIChatResp) (req : AskRequest) :
    Except String AskResponse × List OAICall :=
  match validateAskRequest req with
  | some e => (.error e, [])
  | none =>
    if c.requireAPIKey = true ∧ c.apiKey = "" then
      (.error ("API key not configured for " ++ c.name), [])
    else
      let url := joinURL c.base c.chatPath
      let p1 := buildOAIPayload req true
      let call1 : OAICall := ⟨url, setHeaders c, p1⟩
      match oracle p1 with
      | .ok resp => (finishOAI c resp, [call1])
      | .error e =>
        if req.expectJSON && responseFormatLikelyUnsupported e then
          let p2 := buildOAIPayload req false
          let call2 : OAICall := ⟨url, setHeaders c, p2⟩
          match oracle p2 with
          | .ok resp => (finishOAI c resp, [call1, call2])
          | .error e2 => (.error e2, [call1, call2])
        else (.error e, [call1])

/-- One HTTP GET issued by a `ListModels` implementation. -/
structure ListRequest where
  url : String
  headers : List (String × String)
deriving DecidableEq, Repr

/-- The decode loop of `openAICompatibleClient.ListModels` over the
decoded `data[].id` strings: trim, drop empties, sort by `ID`. -/
def openAICompatModelsOf (ids : List String) : List Model :=
  sortByID (ids.filterMap fun raw =>
    let id := trimSpace raw
    if id = "" then none else some ⟨id, id⟩)

/-- `openAICompatibleClient.ListModels`; the oracle stands for the HTTP
GET plus JSON decode, returning the `data[].id` strings. -/
def openAICompatListModels (c : OpenAICompatClient)
    (oracle : ListRequest → Except String (List String)) :
    Except String (List Model) × List ListRequest :=
  if c.requireAPIKey = true ∧ c.apiKey = "" then
    (.error ("API key not configured for " ++ c.name), [])
  else
    let r : ListRequest := ⟨joinURL c.base c.modelsPath, setHeaders c⟩
    match oracle r with
    | .error e => (.error e, [r])
    | .ok ids => (.ok (openAICompatModelsOf ids), [r])

/-! ## Ollama adapter (`ollama.go`) -/

/-- The `/api/chat` payload built by `ollamaClient.Ask`
(`stream` is always `false`; `format: "json"` present iff
`formatJSON`). -/
structure OllamaPayload where
  model : String
  systemContent : String
  userContent : String
  stream : Bool
  formatJSON : Bool
deriving DecidableEq, Repr

/-- The decoded `/api/chat` response body (`message.content`). -/
structure OllamaResp where
  messageContent : String
deriving DecidableEq, Repr

/-- `ollamaClient.Ask`. -/
def ollamaAsk (oracle : OllamaPayload → Except String OllamaResp) (req : AskRequest) :
    Except String AskResponse × List OllamaPayload :=
  match validateAskRequest req with
  | some e => (.error e, [])
  | none =>
    let p : OllamaPayload := ⟨req.model, req.prompt, req.question, false, req.expectJSON⟩
    match oracle p with
    | .error e => (.error e, [p])
    | .ok resp =>
      if trimSpace resp.messageContent = "" then
        (.error "ollama response had empty content", [p])
      else (.ok ⟨resp.messageContent⟩, [p])

/-- The decode loop of `ollamaClient.ListModels` over the decoded
`models[].name` strings (textually the same loop as the
OpenAI-compatible one). -/
def ollamaModelsOf (names : List String) : List Model :=
  sortByID (names.filterMap fun raw =>
    let id := trimSpace raw
    if id = "" then none else some ⟨id, id⟩)

/-! ## Anthropic adapter (`anthropic.go`) -/

/-- `anthropicClient` configuration. -/
structure AnthClient where
  apiKey : String
  base : String
  headers : List (String × String)
deriving DecidableEq, Repr

/-- `anthropicClient.setHeaders`: fixed `x-api-key` and
`anthropic-version` headers, then the extra-header loop. -/
def anthSetHeaders (c : AnthClient) : List (String × String) :=
  [("x-api-key", c.apiKey), ("anthropic-version", "2023-06-01")] ++
    c.headers.filter fun kv => !(trimSpace kv.1 == "") && !(trimSpace kv.2 == "")

/-- The `/v1/messages` payload built by `anthropicClient.Ask`:
`{model, max_tokens: 2048, system, messages: [{role: user,
content: [{type: text, text: Question}]}]}`. The Go code reads no other
request field; in particular `ExpectJSON` does not occur in the
function body. -/
structure AnthPayload where
  model : String
  maxTokens : Nat
  system : String
  userText : String
deriving DecidableEq, Repr

/-- One HTTP POST issued by `anthropicClient.Ask`. -/
structure AnthCall where
  url : String
  headers : List (String × String)
  payload : AnthPayload
deriving DecidableEq, Repr

/-- One element of the decoded `content` array. -/
structure AnthBlock where
  type : String
  text : String
deriving DecidableEq, Repr

/-- The decoded `/v1/messages` response body. -/
structure AnthResp where
  content : List AnthBlock
deriving DecidableEq, Repr

/-- The `parts` loop of `anthropicClient.Ask`: keep the raw text of
blocks with `type == "text"` and non-blank trimmed text. -/
def anthTextParts (blocks : List AnthBlock) : List String :=
  blocks.filterMap fun b =>
    if b.type = "text" ∧ trimSpace b.text ≠ "" then some b.text else none

/-- `anthropicClient.Ask`. -/
def anthropicAsk (c : AnthClient) (oracle : AnthPayload → Except String AnthResp)
    (req : AskRequest) : Except String AskResponse × List AnthCall :=
  match validateAskRequest req with
  | some e => (.error e, [])
  | none =>
    if c.apiKey = "" then (.error "ANTHROPIC_API_KEY not configured", [])
    else
      let p : AnthPayload := ⟨req.model, 2048, req.prompt, req.question⟩
      let call : AnthCall := ⟨joinURL c.base "/v1/messages", anthSetHeaders c, p⟩
      match oracle p with
      | .error e => (.error e, [call])
      | .ok resp =>
        let parts := anthTextParts resp.content
        if parts = [] then (.error "no text content returned by Anthropic", [call])
        else (.ok ⟨joinNL parts⟩, [call])

/-- One entry of the decoded `/v1/models` response. -/
structure AnthEntry where
  id : String
  displayName : String
deriving DecidableEq, Repr

/-- The decode loop of `anthropicClient.ListModels`: trim ids, drop
empties, default `DisplayName` to the id, sort by `ID`. -/
def anthropicModelsOf (entries : List AnthEntry) : List Model :=
  sortByID (entries.filterMap fun m =>
    let id := trimSpace m.id
    if id = "" then none
    else
      let name := trimSpace m.displayName
      some ⟨id, if name = "" then id else name⟩)

/-! ## Gemini adapter (`gemini.go`) -/

/-- `geminiClient` configuration. -/
structure GemClient where
  apiKey : String
  base : String
  headers : List (String × String)
deriving DecidableEq, Repr

/-- `geminiClient.setHeaders`: fixed `x-goog-api-key` header, then the
extra-header loop. -/
def gemSetHeaders (c : GemClient) : List (String × String) :=
  [("x-goog-api-key", c.apiKey)] ++
    c.headers.filter fun kv => !(trimSpace kv.1 == "") && !(trimSpace kv.2 == "")

/-- `supportsGenerateContent` from `gemini.go`. -/
def supportsGenerateContent (methods : List String) : Bool :=
  methods.any fun m => equalFold (trimSpace m) "generateContent"

/-- One entry of the decoded `/models` catalog response. -/
structure GemEntry where
  name : String
  displayName : String
  methods : List String
deriving DecidableEq, Repr

/-- The decode loop of `geminiClient.ListModels`: keep entries
supporting `generateContent`, strip a leading `models/` from the
trimmed name, drop empties, default the display name, sort by `ID`. -/
def geminiModelsOf (entries : List GemEntry) : List Model :=
  sortByID (entries.filterMap fun m =>
    if supportsGenerateContent m.methods = true then
      let id := trimPre (trimSpace m.name) "models/"
      if id = "" then none
      else
        let display := trimSpace m.displayName
        some ⟨id, if display = "" then id else display⟩
    else none)

/-- The `generateContent` payload built by `geminiClient.Ask`
(`systemInstruction`, `contents`, and the `generationConfig` whose
`responseMimeType: "application/json"` entry is present iff
`responseMimeTypeJSON`; the constant temperature field is elided). -/
structure GemPayload where
  system : String
  userText : String
  responseMimeTypeJSON : Bool
deriving DecidableEq, Repr

/-- One HTTP POST issued by `geminiClient.Ask`: the per-model path
(`/models/<id>:generateContent`), the resulting url, headers, and
payload. -/
structure GemCall where
  path : String
  url : String
  headers : List (String × String)
  payload : GemPayload
deriving DecidableEq, Repr

/-- One part of the first decoded candidate. -/
structure GemPart where
  text : String
deriving DecidableEq, Repr

/-- One decoded candidate. -/
structure GemCand where
  parts : List GemPart
deriving DecidableEq, Repr

/-- The decoded `generateContent` response body. -/
structure GemResp where
  candidates : List GemCand
deriving DecidableEq, Repr

/-- The tail of `geminiClient.Ask` after a successful HTTP exchange:
no candidate is an error; parts with blank trimmed text are dropped;
zero usable parts is an error; else the raw parts join with newlines. -/
def finishGemini (resp : GemResp) : Except String AskResponse :=
  match resp.candidates with
  | [] => .error "no candidates returned by Gemini"
  | cand :: _ =>
    let parts := cand.parts.filterMap fun part =>
      if trimSpace part.text = "" then none else some part.text
    if parts = [] then .error "Gemini response had no text parts"
    else .ok ⟨joinNL parts⟩

/-- `geminiClient.Ask`, with the one-shot retry that drops the
`responseMimeType` directive when the first error matches
`responseFormatLikelyUnsupported` and `ExpectJSON` is set. -/
def geminiAsk (c : GemClient) (oracle : GemCall → Except String GemResp)
    (req : AskRequest) : Except String AskResponse × List GemCall :=
  match validateAskRequest req with
  | some e => (.error e, [])
  | none =>
    if c.apiKey = "" then (.error "GEMINI_API_KEY not configured", [])
    else
      let model := trimPre (trimSpace req.model) "models/"
      if model = "" then (.error "model is required", [])
      else
        let path := "/models/" ++ model ++ ":generateContent"
        let url := joinURL c.base path
        let hs := gemSetHeaders c
        let p1 : GemPayload := ⟨req.prompt, req.question, req.expectJSON⟩
        let call1 : GemCall := ⟨path, url, hs, p1⟩
        match oracle call1 with
        | .ok resp => (finishGemini resp, [call1])
        | .error e =>
          if req.expectJSON && responseFormatLikelyUnsupported e then
            let p2 : GemPayload := ⟨req.prompt, req.question, false⟩
            let call2 : GemCall := ⟨path, url, hs, p2⟩
            match oracle call2 with
            | .ok resp => (finishGemini resp, [call1, call2])
            | .error e2 => (.error e2, [call1, call2])
          else (.error e, [call1])

/-! ## Concrete sample configurations (used to evaluate the models on
closed inputs) -/

/-- A key-requiring OpenAI-compatible client with the default paths. -/
def sampleOAIClient : OpenAICompatClient :=
  ⟨"openai", "k", "https://api.example.com/v1", "/models", "/chat/completions",
    "Authorization", "Bearer ", true, []⟩

/-- A custom OpenAI-compatible client that does not require an API key
but has one configured. -/
def sampleCustomClient : OpenAICompatClient :=
  ⟨"myproxy", "secret", "https://proxy.example.com", "/models", "/chat/completions",
    "Authorization", "Bearer ", false, []⟩

/-- A chat oracle that rejects the first attempt with a
`response_format` complaint and succeeds once the directive is
dropped. -/
def sampleRejectingOracle : OAIPayload → Except String OAIChatResp :=
  fun p =>
    if p.responseFormatJSON then .error "response_format is not supported"
    else .ok ⟨[⟨.str "ok"⟩]⟩

/-- A sample request with `ExpectJSON` set. -/
def sampleJSONRequest : AskRequest := ⟨"m", "p", "q", true⟩

/-! ## Order lemmas: `strLe` matches the library order on `String` -/

theorem strLeChars_iff_not_lex :
    ∀ as bs : List Char, strLeChars as bs = true ↔ ¬ List.Lex (· < ·) bs as
  | [], bs => by
    simp only [strLeChars, true_iff]
    intro h; cases h
  | a :: as, [] => by
    simp only [strLeChars, Bool.false_eq_true, false_iff, not_not]
    exact List.Lex.nil
  | a :: as, b :: bs => by
    rcases lt_trichotomy a b with h | h | h
    · simp only [strLeChars, if_pos h, true_iff]
      intro hlt
      cases hlt with
      | cons _ => exact absurd h (lt_irrefl a)
      | rel hba => exact absurd h (not_lt_of_gt hba)
    · subst h
      simp only [strLeChars, if_neg (lt_irrefl a)]
      rw [strLeChars_iff_not_lex as bs]
      constructor
      · intro hn hlt
        cases hlt with
        | cons htail => exact hn htail
        | rel hba => exact absurd hba (lt_irrefl a)
      · intro hn hlt
        exact hn (List.Lex.cons hlt)
    · simp only [strLeChars, if_neg (not_lt_of_gt h), if_pos h, Bool.false_eq_true,
        false_iff, not_not]
      exact List.Lex.rel h

theorem strLe_iff (a b : String) : strLe a b = true ↔ a ≤ b := by
  have hle : a ≤ b ↔ ¬ List.Lex (· < ·) b.data a.data := by
    rw [String.le_iff_toList_le, ← not_lt]
    rfl
  rw [hle]
  exact strLeChars_iff_not_lex a.data b.data

theorem modelLe_total (a b : Model) : modelLe a b ∨ modelLe b a := by
  rcases le_total a.ID b.ID with h | h
  · exact Or.inl ((strLe_iff _ _).mpr h)
  · exact Or.inr ((strLe_iff _ _).mpr h)

theorem modelLe_trans {a b c : Model} (h1 : modelLe a b) (h2 : modelLe b c) : modelLe a c :=
  (strLe_iff _ _).mpr (le_trans ((strLe_iff _ _).mp h1) ((strLe_iff _ _).mp h2))

/-! ## Sorting lemmas -/

theorem sortByID_sorted (l : List Model) :
    List.Sorted (fun a b : Model => a.ID ≤ b.ID) (sortByID l) := by
  haveI : IsTotal Model modelLe := ⟨modelLe_total⟩
  haveI : IsTrans Model modelLe := ⟨fun _ _ _ => modelLe_trans⟩
  exact (List.sorted_insertionSort modelLe l).imp fun h => (strLe_iff _ _).mp h

theorem mem_sortByID {x : Model} {l : List Model} : x ∈ sortByID l ↔ x ∈ l :=
  (List.perm_insertionSort modelLe l).mem_iff

/-! ## Whitespace-trim lemmas -/

theorem dropWhile_head_false (p : Char → Bool) :
    ∀ l : List Char, l.dropWhile p = [] ∨
      ∃ h t, l.dropWhile p = h :: t ∧ p h = false
  | [] => Or.inl rfl
  | a :: l => by
    by_cases hp : p a = true
    · rw [List.dropWhile_cons, if_pos hp]
      exact dropWhile_head_false p l
    · rw [List.dropWhile_cons, if_neg hp]
      exact Or.inr ⟨a, l, rfl, Bool.not_eq_true _ ▸ hp⟩

theorem dropWhile_idem (p : Char → Bool) (l : List Char) :
    (l.dropWhile p).dropWhile p = l.dropWhile p := by
  rcases dropWhile_head_false p l with h | ⟨a, t, h, hpa⟩
  · rw [h]; rfl
  · rw [h, List.dropWhile_cons, if_neg (by simp [hpa])]

theorem head_not_p_of_dropWhile_self {α : Type} (p : α → Bool) {l : List α} {b : α} {t : List α}
    (hself : l.dropWhile p = l) (hbt : l = b :: t) : p b = false := by
  by_contra hb
  have hb2 : p b = true := by
    cases hpb : p b with
    | false => exact absurd hpb hb
    | true => rfl
  rw [hbt, List.dropWhile_cons, if_pos hb2] at hself
  have hlen : (t.dropWhile p).length ≤ t.length := (List.dropWhile_sublist p).length_le
  rw [hself] at hlen
  simp at hlen

theorem trimList_idem (l : List Char) :
    (((((((l.dropWhile isSpaceChar).reverse.dropWhile
        isSpaceChar).reverse).dropWhile isSpaceChar).reverse).dropWhile
        isSpaceChar)).reverse =
      ((l.dropWhile isSpaceChar).reverse.dropWhile isSpaceChar).reverse := by
  have hA : (l.dropWhile isSpaceChar).dropWhile isSpaceChar = l.dropWhile isSpaceChar :=
    dropWhile_idem isSpaceChar l
  have hsplit :
      ((l.dropWhile isSpaceChar).reverse.dropWhile isSpaceChar).reverse ++
        ((l.dropWhile isSpaceChar).reverse.takeWhile isSpaceChar).reverse =
      l.dropWhile isSpaceChar := by
    rw [← List.reverse_append, List.takeWhile_append_dropWhile, List.reverse_reverse]
  have hBnoLead :
      (((l.dropWhile isSpaceChar).reverse.dropWhile isSpaceChar).reverse).dropWhile isSpaceChar =
        ((l.dropWhile isSpaceChar).reverse.dropWhile isSpaceChar).reverse := by
    cases hBcase : ((l.dropWhile isSpaceChar).reverse.dropWhile isSpaceChar).reverse with
    | nil => rfl
    | cons b t =>
      have h1 : (b :: t) ++ ((l.dropWhile isSpaceChar).reverse.takeWhile isSpaceChar).reverse =
          l.dropWhile isSpaceChar := by
        rw [← hBcase]
        exact hsplit
      have hA2 : l.dropWhile isSpaceChar =
          b :: (t ++ ((l.dropWhile isSpaceChar).reverse.takeWhile isSpaceChar).reverse) :=
        h1.symm.trans (List.cons_append b t _)
      have hpb : isSpaceChar b = false :=
        head_not_p_of_dropWhile_self isSpaceChar hA hA2
      rw [List.dropWhile_cons, if_neg (by simp [hpb])]
  rw [hBnoLead, List.reverse_reverse,
    dropWhile_idem isSpaceChar (l.dropWhile isSpaceChar).reverse]

theorem trimSpace_idem (s : String) : trimSpace (trimSpace s) = trimSpace s := by
  rw [String.ext_iff]
  exact trimList_idem s.data

theorem allP_dropWhile_iff (p : Char → Bool) (l : List Char) :
    (∀ c ∈ l.dropWhile p, p c = true) ↔ (∀ c ∈ l, p c = true) := by
  constructor
  · intro h c hc
    rw [← List.takeWhile_append_dropWhile p l, List.mem_append] at hc
    rcases hc with hc | hc
    · exact List.mem_takeWhile_imp hc
    · exact h c hc
  · intro h c hc
    have hmem : c ∈ l := by
      rw [← List.takeWhile_append_dropWhile p l, List.mem_append]
      exact Or.inr hc
    exact h c hmem

theorem trimSpace_eq_empty_iff (s : String) :
    trimSpace s = "" ↔ ∀ c ∈ s.data, isSpaceChar c = true := by
  rw [String.ext_iff]
  show ((s.data.dropWhile isSpaceChar).reverse.dropWhile isSpaceChar).reverse = [] ↔ _
  rw [List.reverse_eq_nil_iff, List.dropWhile_eq_nil_iff]
  constructor
  · intro h c hc
    have hall : ∀ c ∈ s.data.dropWhile isSpaceChar, isSpaceChar c = true := by
      intro c2 hc2
      exact h c2 (List.mem_reverse.mpr hc2)
    exact (allP_dropWhile_iff isSpaceChar s.data).mp hall c hc
  · intro h c hc
    exact (allP_dropWhile_iff isSpaceChar s.data).mpr h c (List.mem_reverse.mp hc)

/-! ## Lemmas about newline joins and the per-provider part filters -/

theorem mem_data_joinNL_head (p : String) (rest : List String) {c : Char}
    (hc : c ∈ p.data) : c ∈ (joinNL (p :: rest)).data := by
  cases rest with
  | nil => exact hc
  | cons t rest =>
    show c ∈ (p ++ "\n" ++ joinNL (t :: rest)).data
    rw [String.data_append, String.data_append]
    exact List.mem_append.mpr (Or.inl (List.mem_append.mpr (Or.inl hc)))

theorem trimSpace_joinNL_ne_empty {p : String} (rest : List String)
    (hp : trimSpace p ≠ "") : trimSpace (joinNL (p :: rest)) ≠ "" := by
  intro h
  apply hp
  rw [trimSpace_eq_empty_iff] at h ⊢
  intro c hc
  exact h c (mem_data_joinNL_head p rest hc)

theorem mem_anthTextParts {x : String} {blocks : List AnthBlock}
    (hx : x ∈ anthTextParts blocks) : trimSpace x ≠ "" := by
  rw [anthTextParts, List.mem_filterMap] at hx
  obtain ⟨b, _, hb⟩ := hx
  by_cases hcond : b.type = "text" ∧ trimSpace b.text ≠ ""
  · rw [if_pos hcond] at hb
    obtain rfl : b.text = x := Option.some.inj hb
    exact hcond.2
  · rw [if_neg hcond] at hb
    cases hb

theorem mem_gemParts {x : String} {parts : List GemPart}
    (hx : x ∈ parts.filterMap fun part =>
      if trimSpace part.text = "" then none else some part.text) :
    trimSpace x ≠ "" := by
  rw [List.mem_filterMap] at hx
  obtain ⟨b, _, hb⟩ := hx
  by_cases hcond : trimSpace b.text = ""
  · rw [if_pos hcond] at hb
    cases hb
  · rw [if_neg hcond] at hb
    obtain rfl : b.text = x := Option.some.inj hb
    exact hcond

theorem mem_usableParts {x : String} {items : List JsonItem}
    (hx : x ∈ usableParts items) : trimSpace x ≠ "" := by
  rw [usableParts, List.mem_filterMap] at hx
  obtain ⟨it, _, hit⟩ := hx
  cases it with
  | obj tx =>
    dsimp only at hit
    by_cases hcond : trimSpace tx = ""
    · rw [if_pos hcond] at hit
      cases hit
    · rw [if_neg hcond] at hit
      obtain rfl : tx = x := Option.some.inj hit
      exact hcond
  | nonObj =>
    dsimp only at hit
    cases hit

theorem extract_ok_trimmed {content : Content} {t : String}
    (h : extractMessageContent content = .ok t) : trimSpace t = t := by
  cases content with
  | str v =>
    obtain rfl : trimSpace v = t := Except.ok.inj h
    exact trimSpace_idem v
  | arr items =>
    by_cases hnil : usableParts items = []
    · rw [extractMessageContent, if_pos hnil] at h
      cases h
    · rw [extractMessageContent, if_neg hnil] at h
      obtain rfl : trimSpace (joinNL (usableParts items)) = t := Except.ok.inj h
      exact trimSpace_idem _
  | other => cases h

theorem finishOAI_ok_trimmed {c : OpenAICompatClient} {resp : OAIChatResp} {t : String}
    (h : finishOAI c resp = .ok ⟨t⟩) : trimSpace t = t := by
  rw [finishOAI] at h
  cases hch : resp.choices with
  | nil =>
    rw [hch] at h
    cases h
  | cons ch rest =>
    rw [hch] at h
    dsimp only at h
    cases hex : extractMessageContent ch.content with
    | error e =>
      rw [hex] at h
      cases h
    | ok t2 =>
      rw [hex] at h
      have ht2 : t2 = t := congrArg AskResponse.text (Except.ok.inj h)
      rw [← ht2]
      exact extract_ok_trimmed hex

theorem finishGemini_ok_ne_empty {resp : GemResp} {t : String}
    (h : finishGemini resp = .ok ⟨t⟩) : trimSpace t ≠ "" := by
  rw [finishGemini] at h
  cases hch : resp.candidates with
  | nil =>
    rw [hch] at h
    cases h
  | cons cand rest =>
    rw [hch] at h
    dsimp only at h
    by_cases hnil : (cand.parts.filterMap fun part =>
        if trimSpace part.text = "" then none else some part.text) = []
    · rw [if_pos hnil] at h
      cases h
    · rw [if_neg hnil] at h
      have hj : joinNL (cand.parts.filterMap fun part =>
          if trimSpace part.text = "" then none else some part.text) = t :=
        congrArg AskResponse.text (Except.ok.inj h)
      obtain ⟨p, ps, hps⟩ := List.exists_cons_of_ne_nil hnil
      have hp : trimSpace p ≠ "" := mem_gemParts (hps ▸ List.mem_cons_self p ps)
      rw [← hj, hps]
      exact trimSpace_joinNL_ne_empty ps hp

/-! ## Trace-shape lemmas for the traced adapters -/

theorem openAICompatAsk_trace_cases (c : OpenAICompatClient)
    (oracle : OAIPayload → Except String OAIChatResp) (req : AskRequest) :
    (openAICompatAsk c oracle req).2 = [] ∨
    (openAICompatAsk c oracle req).2 =
      [⟨joinURL c.base c.chatPath, setHeaders c, buildOAIPayload req true⟩] ∨
    (openAICompatAsk c oracle req).2 =
      [⟨joinURL c.base c.chatPath, setHeaders c, buildOAIPayload req true⟩,
       ⟨joinURL c.base c.chatPath, setHeaders c, buildOAIPayload req false⟩] := by
  rw [openAICompatAsk]
  dsimp only
  split
  · exact Or.inl rfl
  · split
    · exact Or.inl rfl
    · split
      · exact Or.inr (Or.inl rfl)
      · split
        · split
          · exact Or.inr (Or.inr rfl)
          · exact Or.inr (Or.inr rfl)
        · exact Or.inr (Or.inl rfl)

theorem openAICompatAsk_le_two (c : OpenAICompatClient)
    (oracle : OAIPayload → Except String OAIChatResp) (req : AskRequest) :
    (openAICompatAsk c oracle req).2.length ≤ 2 := by
  rcases openAICompatAsk_trace_cases c oracle req with h | h | h <;> rw [h] <;> simp

theorem openAICompatAsk_call_headers (c : OpenAICompatClient)
    (oracle : OAIPayload → Except String OAIChatResp) (req : AskRequest) :
    ∀ call ∈ (openAICompatAsk c oracle req).2, call.headers = setHeaders c := by
  intro call hcall
  rcases openAICompatAsk_trace_cases c oracle req with h | h | h <;> rw [h] at hcall <;>
    simp only [List.mem_cons, List.not_mem_nil, or_false] at hcall
  · rw [hcall]
  · rcases hcall with hcall | hcall
    · rw [hcall]
    · rw [hcall]

/-! ## Claim theorems -/

/-- C9: the shared transport routine `doJSON` classifies any response
with status at least 400 as an error carrying the body truncated to the
700-byte cap; on a success status it decodes the body into the
caller-supplied output value, and a whitespace-only body is a no-op that
leaves the output value unchanged and returns no error. -/
theorem c9_doJSON_transport {A : Type} (resp : HTTPResponse)
    (decode : String → Except String A) (out : A) :
    (400 ≤ resp.status →
      doJSON (.ok resp) decode out =
        .error ("provider returned " ++ toString resp.status ++ ": " ++
          truncate resp.body 700)) ∧
    (resp.status < 400 → trimSpace resp.body = "" →
      doJSON (.ok resp) decode out = .ok out) ∧
    (resp.status < 400 → trimSpace resp.body ≠ "" →
      doJSON (.ok resp) decode out =
        match decode resp.body with
        | .error e =>
          .error ("decode response JSON: " ++ e ++ "; body=" ++ truncate resp.body 700)
        | .ok v => .ok v) ∧
    (truncate resp.body 700).length ≤ 703 ∧
    (resp.body.length ≤ 700 → truncate resp.body 700 = resp.body) := by
  refine ⟨?_, ?_, ?_, ?_, ?_⟩
  · intro h
    show (if 400 ≤ resp.status then _ else _) = _
    rw [if_pos h]
  · intro h hb
    show (if 400 ≤ resp.status then _ else _) = _
    rw [if_neg (not_le.mpr h), if_pos hb]
  · intro h hb
    show (if 400 ≤ resp.status then _ else _) = _
    rw [if_neg (not_le.mpr h), if_neg hb]
  · by_cases hlen : resp.body.length ≤ 700
    · rw [truncate, if_pos hlen]
      omega
    · rw [truncate, if_neg hlen, String.length_append]
      show (resp.body.data.take 700).length + 3 ≤ 703
      rw [List.length_take]
      omega
  · intro h
    rw [truncate, if_pos h]

/-- C9 witness: a concrete 500 response is classified as an error whose
message carries the body. -/
theorem c9_witness :
    doJSON (A := Nat) (.ok ⟨500, "oops"⟩) (fun _ => .error "x") 0 =
      .error ("provider returned " ++ toString (500 : Nat) ++ ": " ++ truncate "oops" 700) :=
  (c9_doJSON_transport ⟨500, "oops"⟩ (fun _ => .error "x") 0).1 (by decide)

/-- C5 counterexample: on the list input `[{text: " a "}]` the function
returns the trimmed join `"a"`, not the fragment join `" a "` required
by the claim. -/
theorem c5_counterexample :
    extractMessageContent (.arr [.obj " a "]) = .ok "a" ∧ ("a" : String) ≠ " a " :=
  ⟨rfl, by decide⟩

/-- C5 amended: string content is trimmed and returned without error;
list content with at least one usable fragment returns the raw fragments
joined by newlines with the joined result whitespace-trimmed; a list
with zero usable fragments errors with the no-text-parts message; any
other shape errors as unsupported. -/
theorem c5_amended_extract :
    (∀ s, extractMessageContent (.str s) = .ok (trimSpace s)) ∧
    (∀ items, usableParts items ≠ [] →
      extractMessageContent (.arr items) = .ok (trimSpace (joinNL (usableParts items)))) ∧
    (∀ items, (∀ it ∈ items, ∀ t, it = JsonItem.obj t → trimSpace t = "") →
      extractMessageContent (.arr items) = .error "array content had no text parts") ∧
    extractMessageContent (.arr [.obj "a", .obj "b"]) = .ok "a\nb" ∧
    extractMessageContent .other = .error "unsupported content type" := by
  refine ⟨fun s => rfl, ?_, ?_, rfl, rfl⟩
  · intro items h
    show (if usableParts items = [] then _ else _) = _
    rw [if_neg h]
  · intro items h
    have husable : usableParts items = [] := by
      rw [usableParts, List.filterMap_eq_nil_iff]
      intro it hit
      cases it with
      | obj t =>
        dsimp only
        rw [if_pos (h _ hit t rfl)]
      | nonObj => rfl
    show (if usableParts items = [] then _ else _) = _
    rw [if_pos husable]

/-- C5 witness: a list with one usable fragment among unusable ones
yields the trimmed newline-join of the usable fragments. -/
theorem c5_witness :
    extractMessageContent (.arr [.obj " x ", .nonObj, .obj "  "]) = .ok "x" := by
  have h := c5_amended_extract.2.1 [JsonItem.obj " x ", JsonItem.nonObj, JsonItem.obj "  "]
    (by decide)
  rw [h]
  rfl

/-- C8: the Anthropic adapter ignores `ExpectJSON` entirely: two
requests differing only in that flag produce the same result and the
same wire trace (payload, endpoint and headers included). -/
theorem c8_anthropic_expectJSON_no_wire_effect (c : AnthClient)
    (oracle : AnthPayload → Except String AnthResp) (req : AskRequest) (b1 b2 : Bool) :
    anthropicAsk c oracle { req with expectJSON := b1 } =
      anthropicAsk c oracle { req with expectJSON := b2 } := by
  cases req
  rfl

/-- C2: for every provider client, a request whose model or question is
blank after trimming fails with the corresponding validation error and
no HTTP call is issued (the trace is empty). -/
theorem c2_validation_before_http (c : OpenAICompatClient) (ca : AnthClient)
    (cg : GemClient) (o1 : OAIPayload → Except String OAIChatResp)
    (o2 : AnthPayload → Except String AnthResp)
    (o3 : GemCall → Except String GemResp)
    (o4 : OllamaPayload → Except String OllamaResp) (req : AskRequest)
    (h : trimSpace req.model = "" ∨ trimSpace req.question = "") :
    ∃ msg, (msg = "model is required" ∨ msg = "question is required") ∧
      validateAskRequest req = some msg ∧
      openAICompatAsk c o1 req = (.error msg, []) ∧
      anthropicAsk ca o2 req = (.error msg, []) ∧
      geminiAsk cg o3 req = (.error msg, []) ∧
      ollamaAsk o4 req = (.error msg, []) := by
  by_cases hm : trimSpace req.model = ""
  · have hval : validateAskRequest req = some "model is required" := by
      rw [validateAskRequest, if_pos hm]
    exact ⟨"model is required", Or.inl rfl, hval,
      by rw [openAICompatAsk, hval],
      by rw [anthropicAsk, hval],
      by rw [geminiAsk, hval],
      by rw [ollamaAsk, hval]⟩
  · have hq : trimSpace req.question = "" := h.resolve_left hm
    have hval : validateAskRequest req = some "question is required" := by
      rw [validateAskRequest, if_neg hm, if_pos hq]
    exact ⟨"question is required", Or.inr rfl, hval,
      by rw [openAICompatAsk, hval],
      by rw [anthropicAsk, hval],
      by rw [geminiAsk, hval],
      by rw [ollamaAsk, hval]⟩

/-- C2 witness: a request with a whitespace-only question fails
validation on all four adapters with an empty call trace. -/
theorem c2_witness :
    ∃ msg, (msg = "model is required" ∨ msg = "question is required") ∧
      validateAskRequest ⟨"m", "p", " ", false⟩ = some msg ∧
      openAICompatAsk sampleOAIClient (fun _ => .error "boom") ⟨"m", "p", " ", false⟩ =
        (.error msg, []) ∧
      anthropicAsk ⟨"k", "https://a", []⟩ (fun _ => .error "boom") ⟨"m", "p", " ", false⟩ =
        (.error msg, []) ∧
      geminiAsk ⟨"k", "https://g", []⟩ (fun _ => .error "boom") ⟨"m", "p", " ", false⟩ =
        (.error msg, []) ∧
      ollamaAsk (fun _ => .error "boom") ⟨"m", "p", " ", false⟩ = (.error msg, []) :=
  c2_validation_before_http sampleOAIClient ⟨"k", "https://a", []⟩ ⟨"k", "https://g", []⟩
    (fun _ => .error "boom") (fun _ => .error "boom") (fun _ => .error "boom")
    (fun _ => .error "boom") ⟨"m", "p", " ", false⟩ (Or.inr (by decide))

theorem openAICompatListModels_trace (c : OpenAICompatClient)
    (oracleL : ListRequest → Except String (List String)) :
    (openAICompatListModels c oracleL).2 = [] ∨
    (openAICompatListModels c oracleL).2 = [⟨joinURL c.base c.modelsPath, setHeaders c⟩] := by
  rw [openAICompatListModels]
  dsimp only
  split
  · exact Or.inl rfl
  · split
    · exact Or.inr rfl
    · exact Or.inr rfl

/-- C10: for an OpenAI-compatible client with `RequireAPIKey` false, the
auth header is never attached — the header list of every issued `Ask` or
`ListModels` request is exactly the filtered extra headers, independent
of any configured API key — and in general the auth entry is attached
iff the client both requires a key and has one. -/
theorem c10_no_auth_header (c : OpenAICompatClient)
    (oracle : OAIPayload → Except String OAIChatResp)
    (oracleL : ListRequest → Except String (List String)) (req : AskRequest)
    (h : c.requireAPIKey = false) :
    authEntries c = [] ∧
    setHeaders c = extraEntries c ∧
    (∀ key, setHeaders { c with apiKey := key } = setHeaders c) ∧
    (∀ call ∈ (openAICompatAsk c oracle req).2, call.headers = extraEntries c) ∧
    (∀ r ∈ (openAICompatListModels c oracleL).2, r.headers = extraEntries c) ∧
    (∀ c2 : OpenAICompatClient,
      authEntries c2 ≠ [] ↔ c2.requireAPIKey = true ∧ c2.apiKey ≠ "") := by
  have hauth : authEntries c = [] := by
    rw [authEntries, if_neg]
    rintro ⟨h1, _⟩
    rw [h] at h1
    cases h1
  have hset : setHeaders c = extraEntries c := by
    rw [setHeaders, hauth, List.nil_append]
  refine ⟨hauth, hset, ?_, ?_, ?_, ?_⟩
  · intro key
    have h2 : authEntries { c with apiKey := key } = [] := by
      rw [authEntries, if_neg]
      rintro ⟨h1, _⟩
      dsimp only at h1
      rw [h] at h1
      cases h1
    rw [setHeaders, setHeaders, hauth, h2]
    rfl
  · intro call hcall
    rw [← hset]
    exact openAICompatAsk_call_headers c oracle req call hcall
  · intro r hr
    rcases openAICompatListModels_trace c oracleL with h2 | h2 <;> rw [h2] at hr
    · exact absurd hr (List.not_mem_nil r)
    · simp only [List.mem_cons, List.not_mem_nil, or_false] at hr
      rw [hr, ← hset]
  · intro c2
    constructor
    · intro hne
      by_contra hcon
      apply hne
      rw [authEntries, if_neg hcon]
    · intro hc
      rw [authEntries, if_pos hc]
      simp

/-- C10 witness: a custom client with `RequireAPIKey` false and a
configured key attaches no auth entry. -/
theorem c10_witness : authEntries sampleCustomClient = [] :=
  (c10_no_auth_header sampleCustomClient (fun _ => .error "boom") (fun _ => .error "boom")
    ⟨"m", "p", "q", false⟩ rfl).1

theorem geminiAsk_trace_cases (c : GemClient) (oracle : GemCall → Except String GemResp)
    (req : AskRequest) :
    (geminiAsk c oracle req).2 = [] ∨
    (geminiAsk c oracle req).2 =
      [⟨"/models/" ++ trimPre (trimSpace req.model) "models/" ++ ":generateContent",
        joinURL c.base
          ("/models/" ++ trimPre (trimSpace req.model) "models/" ++ ":generateContent"),
        gemSetHeaders c, ⟨req.prompt, req.question, req.expectJSON⟩⟩] ∨
    (geminiAsk c oracle req).2 =
      [⟨"/models/" ++ trimPre (trimSpace req.model) "models/" ++ ":generateContent",
        joinURL c.base
          ("/models/" ++ trimPre (trimSpace req.model) "models/" ++ ":generateContent"),
        gemSetHeaders c, ⟨req.prompt, req.question, req.expectJSON⟩⟩,
       ⟨"/models/" ++ trimPre (trimSpace req.model) "models/" ++ ":generateContent",
        joinURL c.base
          ("/models/" ++ trimPre (trimSpace req.model) "models/" ++ ":generateContent"),
        gemSetHeaders c, ⟨req.prompt, req.question, false⟩⟩] := by
  rw [geminiAsk]
  dsimp only
  split
  · exact Or.inl rfl
  · split
    · exact Or.inl rfl
    · split
      · exact Or.inl rfl
      · split
        · exact Or.inr (Or.inl rfl)
        · split
          · split
            · exact Or.inr (Or.inr rfl)
            · exact Or.inr (Or.inr rfl)
          · exact Or.inr (Or.inl rfl)

theorem geminiAsk_call_path (c : GemClient) (oracle : GemCall → Except String GemResp)
    (req : AskRequest) :
    ∀ call ∈ (geminiAsk c oracle req).2,
      call.path = "/models/" ++ trimPre (trimSpace req.model) "models/" ++ ":generateContent" ∧
      call.url = joinURL c.base call.path ∧
      call.headers = gemSetHeaders c := by
  intro call hcall
  rcases geminiAsk_trace_cases c oracle req with h | h | h <;> rw [h] at hcall <;>
    simp only [List.mem_cons, List.not_mem_nil, or_false] at hcall
  · rw [hcall]
    exact ⟨rfl, rfl, rfl⟩
  · rcases hcall with hcall | hcall
    · rw [hcall]
      exact ⟨rfl, rfl, rfl⟩
    · rw [hcall]
      exact ⟨rfl, rfl, rfl⟩

/-- C7: Gemini `Ask` strips one leading `models/` prefix from the
trimmed model id; when the stripped id is empty it fails with a
validation error before any HTTP call, otherwise every issued call
targets the path `/models/<id>:generateContent`. The concrete instance
of the claim is included: `models/gemini-2.0-flash` strips to
`gemini-2.0-flash`. -/
theorem c7_gemini_model_normalization (c : GemClient)
    (oracle : GemCall → Except String GemResp) (req : AskRequest) (hk : c.apiKey ≠ "") :
    (trimPre (trimSpace req.model) "models/" = "" →
      ∃ msg, (msg = "model is required" ∨ msg = "question is required") ∧
        geminiAsk c oracle req = (.error msg, [])) ∧
    (∀ call ∈ (geminiAsk c oracle req).2,
      call.path = "/models/" ++ trimPre (trimSpace req.model) "models/" ++ ":generateContent" ∧
      call.url = joinURL c.base call.path) ∧
    trimPre (trimSpace "models/gemini-2.0-flash") "models/" = "gemini-2.0-flash" := by
  refine ⟨?_, ?_, by decide⟩
  · intro hm0
    by_cases hm : trimSpace req.model = ""
    · have hval : validateAskRequest req = some "model is required" := by
        rw [validateAskRequest, if_pos hm]
      exact ⟨"model is required", Or.inl rfl, by rw [geminiAsk, hval]⟩
    · by_cases hq : trimSpace req.question = ""
      · have hval : validateAskRequest req = some "question is required" := by
          rw [validateAskRequest, if_neg hm, if_pos hq]
        exact ⟨"question is required", Or.inr rfl, by rw [geminiAsk, hval]⟩
      · have hval : validateAskRequest req = none := by
          rw [validateAskRequest, if_neg hm, if_neg hq]
        refine ⟨"model is required", Or.inl rfl, ?_⟩
        rw [geminiAsk, hval]
        dsimp only
        rw [if_neg hk, if_pos hm0]
  · intro call hcall
    exact ⟨(geminiAsk_call_path c oracle req call hcall).1,
      (geminiAsk_call_path c oracle req call hcall).2.1⟩

/-- C7 witness: with a non-blank question and model `models/` (which
strips to the empty id), Gemini `Ask` fails with a validation error and
an empty call trace. -/
theorem c7_witness :
    ∃ msg, (msg = "model is required" ∨ msg = "question is required") ∧
      geminiAsk ⟨"k", "https://g", []⟩ (fun _ => .error "boom") ⟨"models/", "p", "q", false⟩ =
        (.error msg, []) :=
  (c7_gemini_model_normalization ⟨"k", "https://g", []⟩ (fun _ => .error "boom")
    ⟨"models/", "p", "q", false⟩ (by decide)).1 (by decide)

/-- C1: for the OpenAI-compatible `Ask`, the first attempt carries
`response_format` iff `ExpectJSON`; if it fails with an error matching
the format heuristic while `ExpectJSON` is set, exactly one retry is
issued with `response_format` omitted and its outcome is returned;
any other failure is returned with no retry; and no run ever issues
more than two HTTP calls. -/
theorem c1_openai_fallback (c : OpenAICompatClient)
    (oracle : OAIPayload → Except String OAIChatResp) (req : AskRequest)
    (hv : validateAskRequest req = none)
    (hk : ¬ (c.requireAPIKey = true ∧ c.apiKey = "")) :
    (∀ (req2 : AskRequest) (oracle2 : OAIPayload → Except String OAIChatResp),
      (openAICompatAsk c oracle2 req2).2.length ≤ 2) ∧
    (buildOAIPayload req true).responseFormatJSON = req.expectJSON ∧
    (∀ e, oracle (buildOAIPayload req true) = .error e → req.expectJSON = true →
      responseFormatLikelyUnsupported e = true →
      (openAICompatAsk c oracle req).2 =
        [⟨joinURL c.base c.chatPath, setHeaders c, buildOAIPayload req true⟩,
         ⟨joinURL c.base c.chatPath, setHeaders c, buildOAIPayload req false⟩] ∧
      (buildOAIPayload req false).responseFormatJSON = false ∧
      (∀ e2, oracle (buildOAIPayload req false) = .error e2 →
        (openAICompatAsk c oracle req).1 = .error e2) ∧
      (∀ resp, oracle (buildOAIPayload req false) = .ok resp →
        (openAICompatAsk c oracle req).1 = finishOAI c resp)) ∧
    (∀ e, oracle (buildOAIPayload req true) = .error e →
      ¬ (req.expectJSON = true ∧ responseFormatLikelyUnsupported e = true) →
      (openAICompatAsk c oracle req).1 = .error e ∧
      (openAICompatAsk c oracle req).2 =
        [⟨joinURL c.base c.chatPath, setHeaders c, buildOAIPayload req true⟩]) := by
  refine ⟨fun req2 oracle2 => openAICompatAsk_le_two c oracle2 req2, ?_, ?_, ?_⟩
  · rw [buildOAIPayload, Bool.and_true]
  · intro e ho hj hrf
    have hb : (req.expectJSON && responseFormatLikelyUnsupported e) = true := by
      rw [hj, hrf]
      rfl
    refine ⟨?_, by rw [buildOAIPayload, Bool.and_false], ?_, ?_⟩
    · rw [openAICompatAsk, hv]
      dsimp only
      rw [if_neg hk, ho]
      dsimp only
      rw [if_pos hb]
      cases oracle (buildOAIPayload req false) <;> rfl
    · intro e2 ho2
      rw [openAICompatAsk, hv]
      dsimp only
      rw [if_neg hk, ho]
      dsimp only
      rw [if_pos hb, ho2]
    · intro resp ho2
      rw [openAICompatAsk, hv]
      dsimp only
      rw [if_neg hk, ho]
      dsimp only
      rw [if_pos hb, ho2]
  · intro e ho hnb
    have hb : (req.expectJSON && responseFormatLikelyUnsupported e) = false := by
      cases hj : req.expectJSON with
      | false => rfl
      | true =>
        cases hrf : responseFormatLikelyUnsupported e with
        | false => rfl
        | true => exact absurd ⟨hj, hrf⟩ hnb
    constructor
    · rw [openAICompatAsk, hv]
      dsimp only
      rw [if_neg hk, ho]
      dsimp only
      rw [if_neg (by rw [hb]; exact Bool.false_ne_true)]
    · rw [openAICompatAsk, hv]
      dsimp only
      rw [if_neg hk, ho]
      dsimp only
      rw [if_neg (by rw [hb]; exact Bool.false_ne_true)]

/-- C1 witness: against an oracle rejecting `response_format`, a
JSON-expecting request issues exactly the two calls, the second with the
format directive omitted. -/
theorem c1_witness :
    (openAICompatAsk sampleOAIClient sampleRejectingOracle sampleJSONRequest).2 =
      [⟨joinURL sampleOAIClient.base sampleOAIClient.chatPath, setHeaders sampleOAIClient,
        buildOAIPayload sampleJSONRequest true⟩,
       ⟨joinURL sampleOAIClient.base sampleOAIClient.chatPath, setHeaders sampleOAIClient,
        buildOAIPayload sampleJSONRequest false⟩] :=
  ((c1_openai_fallback sampleOAIClient sampleRejectingOracle sampleJSONRequest rfl
    (by decide)).2.2.1 "response_format is not supported" rfl rfl (by decide)).1

/-- C3 counterexample: the openai-compatible adapter succeeds with an
empty `Text` when the provider returns whitespace-only string content,
and the ollama adapter returns `Text` that still carries surrounding
whitespace, contradicting both halves of the claim. -/
theorem c3_counterexample :
    (openAICompatAsk sampleOAIClient (fun _ => .ok ⟨[⟨.str "   "⟩]⟩)
      ⟨"m", "p", "q", false⟩).1 = .ok ⟨""⟩ ∧
    (ollamaAsk (fun _ => .ok ⟨" hi "⟩) ⟨"m", "p", "q", false⟩).1 = .ok ⟨" hi "⟩ ∧
    trimSpace " hi " ≠ " hi " :=
  ⟨rfl, rfl, by decide⟩

/-- C3 amended: on every success path, the ollama, anthropic and gemini
adapters return `Text` that is non-empty after trimming (but not
necessarily trimmed), while the openai-compatible adapter returns
`Text` equal to its own trim (but possibly empty, when the provider
sends whitespace-only string content); zero usable fragments in
list-shaped content is always an error. -/
theorem c3_success_text (req : AskRequest) :
    (∀ (o : OllamaPayload → Except String OllamaResp) (text : String)
      (tr : List OllamaPayload),
      ollamaAsk o req = (.ok ⟨text⟩, tr) → trimSpace text ≠ "") ∧
    (∀ (ca : AnthClient) (o : AnthPayload → Except String AnthResp) (text : String)
      (tr : List AnthCall),
      anthropicAsk ca o req = (.ok ⟨text⟩, tr) → trimSpace text ≠ "") ∧
    (∀ (cg : GemClient) (o : GemCall → Except String GemResp) (text : String)
      (tr : List GemCall),
      geminiAsk cg o req = (.ok ⟨text⟩, tr) → trimSpace text ≠ "") ∧
    (∀ (c : OpenAICompatClient) (o : OAIPayload → Except String OAIChatResp) (text : String)
      (tr : List OAICall),
      openAICompatAsk c o req = (.ok ⟨text⟩, tr) → trimSpace text = text) := by
  refine ⟨?_, ?_, ?_, ?_⟩
  · intro o text tr h
    rw [ollamaAsk] at h
    split at h
    · simp at h
    · dsimp only at h
      split at h
      · simp at h
      · split at h
        · simp at h
        · rename_i hcond
          have hx := congrArg AskResponse.text (Except.ok.inj (congrArg Prod.fst h))
          dsimp only at hx
          rw [← hx]
          exact hcond
  · intro ca o text tr h
    rw [anthropicAsk] at h
    split at h
    · simp at h
    · split at h
      · simp at h
      · dsimp only at h
        split at h
        · simp at h
        · split at h
          · simp at h
          · rename_i hcond
            have hx := congrArg AskResponse.text (Except.ok.inj (congrArg Prod.fst h))
            dsimp only at hx
            obtain ⟨p, ps, hps⟩ := List.exists_cons_of_ne_nil hcond
            have hp : trimSpace p ≠ "" := mem_anthTextParts (hps ▸ List.mem_cons_self p ps)
            rw [← hx, hps]
            exact trimSpace_joinNL_ne_empty ps hp
  · intro cg o text tr h
    rw [geminiAsk] at h
    split at h
    · simp at h
    · split at h
      · simp at h
      · dsimp only at h
        split at h
        · simp at h
        · split at h
          · have hfin := congrArg Prod.fst h
            exact finishGemini_ok_ne_empty hfin
          · split at h
            · split at h
              · have hfin := congrArg Prod.fst h
                exact finishGemini_ok_ne_empty hfin
              · simp at h
            · simp at h
  · intro c o text tr h
    rw [openAICompatAsk] at h
    split at h
    · simp at h
    · split at h
      · simp at h
      · dsimp only at h
        split at h
        · have hfin := congrArg Prod.fst h
          exact finishOAI_ok_trimmed hfin
        · split at h
          · split at h
            · have hfin := congrArg Prod.fst h
              exact finishOAI_ok_trimmed hfin
            · simp at h
          · simp at h

/-- C3 witness: a concrete successful ollama exchange returns text that
is non-empty after trimming. -/
theorem c3_witness : trimSpace " hello " ≠ "" :=
  (c3_success_text ⟨"m", "p", "q", false⟩).1 (fun _ => .ok ⟨" hello "⟩) " hello "
    [⟨"m", "p", "q", false, false⟩] rfl

/-- C4: for all four providers, the decoded catalog is returned sorted
nondecreasingly by `ID` and never contains an entry whose `ID` is empty
(whitespace-only identifiers are dropped). -/
theorem c4_listModels_sorted_nonempty :
    (∀ ids : List String,
      List.Sorted (fun a b : Model => a.ID ≤ b.ID) (openAICompatModelsOf ids) ∧
      ∀ m ∈ openAICompatModelsOf ids, m.ID ≠ "") ∧
    (∀ names : List String,
      List.Sorted (fun a b : Model => a.ID ≤ b.ID) (ollamaModelsOf names) ∧
      ∀ m ∈ ollamaModelsOf names, m.ID ≠ "") ∧
    (∀ entries : List AnthEntry,
      List.Sorted (fun a b : Model => a.ID ≤ b.ID) (anthropicModelsOf entries) ∧
      ∀ m ∈ anthropicModelsOf entries, m.ID ≠ "") ∧
    (∀ entries : List GemEntry,
      List.Sorted (fun a b : Model => a.ID ≤ b.ID) (geminiModelsOf entries) ∧
      ∀ m ∈ geminiModelsOf entries, m.ID ≠ "") := by
  refine ⟨?_, ?_, ?_, ?_⟩
  · intro ids
    refine ⟨sortByID_sorted _, ?_⟩
    intro m hm
    rw [openAICompatModelsOf, mem_sortByID, List.mem_filterMap] at hm
    obtain ⟨raw, _, hraw⟩ := hm
    dsimp only at hraw
    by_cases hid : trimSpace raw = ""
    · rw [if_pos hid] at hraw
      cases hraw
    · rw [if_neg hid] at hraw
      rw [← Option.some.inj hraw]
      exact hid
  · intro names
    refine ⟨sortByID_sorted _, ?_⟩
    intro m hm
    rw [ollamaModelsOf, mem_sortByID, List.mem_filterMap] at hm
    obtain ⟨raw, _, hraw⟩ := hm
    dsimp only at hraw
    by_cases hid : trimSpace raw = ""
    · rw [if_pos hid] at hraw
      cases hraw
    · rw [if_neg hid] at hraw
      rw [← Option.some.inj hraw]
      exact hid
  · intro entries
    refine ⟨sortByID_sorted _, ?_⟩
    intro m hm
    rw [anthropicModelsOf, mem_sortByID, List.mem_filterMap] at hm
    obtain ⟨e, _, he⟩ := hm
    dsimp only at he
    by_cases hid : trimSpace e.id = ""
    · rw [if_pos hid] at he
      cases he
    · rw [if_neg hid] at he
      rw [← Option.some.inj he]
      exact hid
  · intro entries
    refine ⟨sortByID_sorted _, ?_⟩
    intro m hm
    rw [geminiModelsOf, mem_sortByID, List.mem_filterMap] at hm
    obtain ⟨e, _, he⟩ := hm
    dsimp only at he
    by_cases hs : supportsGenerateContent e.methods = true
    · rw [if_pos hs] at he
      by_cases hid : trimPre (trimSpace e.name) "models/" = ""
      · rw [if_pos hid] at he
        cases he
      · rw [if_neg hid] at he
        rw [← Option.some.inj he]
        exact hid
    · rw [if_neg hs] at he
      cases he

/-- C4 witness: a concrete openai-compatible catalog is returned sorted
with the whitespace-only id dropped. -/
theorem c4_witness :
    List.Sorted (fun a b : Model => a.ID ≤ b.ID) (openAICompatModelsOf ["b", " ", "a"]) ∧
    (Model.mk "a" "a").ID ≠ "" :=
  ⟨(c4_listModels_sorted_nonempty.1 ["b", " ", "a"]).1,
   (c4_listModels_sorted_nonempty.1 ["b", " ", "a"]).2 ⟨"a", "a"⟩ (by decide)⟩

/-- C6 counterexample: an entry whose methods contain `generateContent`
but whose name is empty is dropped from the result, so the methods
filter alone does not characterise the kept entries. -/
theorem c6_counterexample :
    supportsGenerateContent ["generateContent"] = true ∧
    geminiModelsOf [⟨"", "d", ["generateContent"]⟩] = [] :=
  ⟨by decide, by decide⟩

/-- C6 amended: Gemini `ListModels` keeps exactly the catalog entries
whose methods contain `generateContent` case-insensitively (after
trimming) and whose name is non-empty after trimming and stripping one
leading `models/`; embedding-only models are always excluded. -/
theorem c6_generateContent_filter (entries : List GemEntry) (mdl : Model) :
    (mdl ∈ geminiModelsOf entries ↔
      ∃ e ∈ entries, supportsGenerateContent e.methods = true ∧
        trimPre (trimSpace e.name) "models/" ≠ "" ∧
        mdl.ID = trimPre (trimSpace e.name) "models/" ∧
        mdl.DisplayName =
          (if trimSpace e.displayName = "" then trimPre (trimSpace e.name) "models/"
            else trimSpace e.displayName)) ∧
    (∀ methods : List String,
      supportsGenerateContent methods = true ↔
        ∃ mth ∈ methods, lowerStr (trimSpace mth) = lowerStr "generateContent") := by
  constructor
  · rw [geminiModelsOf, mem_sortByID, List.mem_filterMap]
    constructor
    · rintro ⟨e, he, hfe⟩
      dsimp only at hfe
      by_cases hs : supportsGenerateContent e.methods = true
      · rw [if_pos hs] at hfe
        by_cases hid : trimPre (trimSpace e.name) "models/" = ""
        · rw [if_pos hid] at hfe
          cases hfe
        · rw [if_neg hid] at hfe
          have h2 := Option.some.inj hfe
          exact ⟨e, he, hs, hid, by rw [← h2], by rw [← h2]⟩
      · rw [if_neg hs] at hfe
        cases hfe
    · rintro ⟨e, he, hs, hid, hID, hDN⟩
      refine ⟨e, he, ?_⟩
      dsimp only
      rw [if_pos hs, if_neg hid]
      cases mdl with
      | mk ID DN =>
        dsimp only at hID hDN
        rw [hID, hDN]
  · intro methods
    simp only [supportsGenerateContent, List.any_eq_true, equalFold, beq_iff_eq]

/-- C6 witness: an entry carrying `generateContent` with a non-empty
stripped name appears in the result. -/
theorem c6_witness :
    (⟨"x", "x"⟩ : Model) ∈ geminiModelsOf [⟨"models/x", "", ["generateContent"]⟩] :=
  (c6_generateContent_filter [⟨"models/x", "", ["generateContent"]⟩] ⟨"x", "x"⟩).1.mpr
    ⟨⟨"models/x", "", ["generateContent"]⟩, by decide, by decide, by decide, by decide,
      by decide⟩

end Ask
